import Mathlib

/-!
Verification of the data-transformation and aggregation pipeline of
`pen_data.py` (antibiotic MIC dashboard).

The script's pipeline logic is embedded shallowly:
* raw JSON records become `RawRecord` (MIC values as rationals);
* `load_and_transform_data` is the long-format normalization loop
  (lines 27-39 of the source);
* the pandas aggregations (boolean-mask filters, `.mean()`, `idxmin`,
  `idxmax`, the filter widget) become list functions.

Float peculiarities that the claims depend on are modelled explicitly:
`np.log10` on a float returns NaN for negative input, `-inf` for zero
and a finite logarithm for positive input (type `LogVal`, where the
finite case is represented symbolically by its positive argument, as
base-10 log is injective on positives); a pandas `.mean()` over an
empty selection returns NaN, and float division handles NaN
propagation and division by zero (type `Flt`). Finite float arithmetic
on the data values themselves is modelled over `ℚ`.
-/

/-- Result of a float computation as the script can observe it:
NaN, plus-infinity, minus-infinity, or a finite value (a rational). -/
inductive Flt where
  | nan : Flt
  | posInf : Flt
  | negInf : Flt
  | val : ℚ → Flt
deriving DecidableEq

/-- Value of `np.log10` applied to a float: NaN (negative argument),
minus-infinity (zero argument), or the finite base-10 logarithm of a
positive argument, represented symbolically by that argument. -/
inductive LogVal where
  | nan : LogVal
  | negInf : LogVal
  | log10Of : ℚ → LogVal
deriving DecidableEq

/-- `np.log10` on a float argument (source line 36): NaN below zero,
`-inf` at zero, finite base-10 logarithm above zero. -/
def np_log10 (q : ℚ) : LogVal :=
  if q < 0 then LogVal.nan
  else if q = 0 then LogVal.negInf
  else LogVal.log10Of q

/-- One object of the raw JSON array `Penicillin Data.json`: the keys
read by the transform loop are `Bacteria`, `Gram_Staining`, `Genus`
and the three antibiotic names. -/
structure RawRecord where
  Bacteria : String
  Gram_Staining : String
  Genus : String
  Penicillin : ℚ
  Streptomycin : ℚ
  Neomycin : ℚ
deriving DecidableEq

/-- `record[antibiotic]`: dictionary access by antibiotic name used at
source lines 33 and 36 (only the three fixed names occur). -/
def RawRecord.micOf (record : RawRecord) (antibiotic : String) : ℚ :=
  if antibiotic == "Penicillin" then record.Penicillin
  else if antibiotic == "Streptomycin" then record.Streptomycin
  else record.Neomycin

/-- One row of the long-format dataframe built at source lines 30-37. -/
structure NormalizedRow where
  bacteria : String
  antibiotic : String
  mic : ℚ
  gram_staining : String
  genus : String
  log_mic : LogVal
deriving DecidableEq

/-- The fixed antibiotic list iterated at source line 29 (also lines
210 and 271/286). -/
def antibiotics : List String := ["Penicillin", "Streptomycin", "Neomycin"]

/-- The dictionary appended for one (record, antibiotic) pair at source
lines 30-37. -/
def mkRow (record : RawRecord) (antibiotic : String) : NormalizedRow :=
  { bacteria := record.Bacteria
    antibiotic := antibiotic
    mic := record.micOf antibiotic
    gram_staining := record.Gram_Staining
    genus := record.Genus
    log_mic := np_log10 (record.micOf antibiotic) }

/-- The inner loop of the transform: the three rows a record emits, in
the declared antibiotic order (source lines 29-37). -/
def rowsOf (record : RawRecord) : List NormalizedRow :=
  antibiotics.map (mkRow record)

/-- `load_and_transform_data` (source lines 19-39), restricted to its
pure transformation part: the JSON array comes in as the argument, and
the double loop flattens it to the long-format table. -/
def load_and_transform_data (raw_data : List RawRecord) : List NormalizedRow :=
  raw_data.flatMap rowsOf

/-- `.mean()` of a pandas numeric series (the `mic` column of a
selection): NaN when the selection is empty, else the arithmetic mean. -/
def micMean (l : List ℚ) : Flt :=
  if l = [] then Flt.nan else Flt.val (l.sum / l.length)

/-- Float division as used on the two group means (source lines 46 and
214): finite over finite divides (with IEEE signed-infinity / NaN
results at a zero divisor); any NaN operand propagates to NaN.
Infinite operands never arise in the program, so they are mapped to
NaN together with the NaN case. -/
def fdiv (a b : Flt) : Flt :=
  match a, b with
  | Flt.val x, Flt.val y =>
      if y = 0 then
        (if x = 0 then Flt.nan else if 0 < x then Flt.posInf else Flt.negInf)
      else Flt.val (x / y)
  | _, _ => Flt.nan

/-- `df[(df['gram_staining'] == 'positive') & (df['antibiotic'] ==
'Penicillin')]['mic'].mean()` (source line 44). -/
def gram_pos_pen (df : List NormalizedRow) : Flt :=
  micMean ((df.filter (fun r =>
    r.gram_staining == "positive" && r.antibiotic == "Penicillin")).map
      (fun r => r.mic))

/-- `df[(df['gram_staining'] == 'negative') & (df['antibiotic'] ==
'Penicillin')]['mic'].mean()` (source line 45). -/
def gram_neg_pen (df : List NormalizedRow) : Flt :=
  micMean ((df.filter (fun r =>
    r.gram_staining == "negative" && r.antibiotic == "Penicillin")).map
      (fun r => r.mic))

/-- `effectiveness_ratio = gram_neg_pen / gram_pos_pen`
(source line 46). -/
def effectiveness_ratio (df : List NormalizedRow) : Flt :=
  fdiv (gram_neg_pen df) (gram_pos_pen df)

/-- `df[df['antibiotic'] == antibiotic]`: the per-antibiotic selection
made at source lines 211, 272 and 287. -/
def antibiotic_data (df : List NormalizedRow) (antibiotic : String) :
    List NormalizedRow :=
  df.filter (fun r => r.antibiotic == antibiotic)

/-- The gram-staining selection applied on top of the per-antibiotic
selection inside `summary_stats` (source lines 212-213), generalized
over the gram value that appears literally in each instance. -/
def group_rows (df : List NormalizedRow) (antibiotic gram : String) :
    List NormalizedRow :=
  (antibiotic_data df antibiotic).filter (fun r => r.gram_staining == gram)

/-- `antibiotic_data[antibiotic_data['gram_staining'] == g]['mic'].mean()`:
the group-mean computation of the summary loop (source lines 212-213). -/
def group_mean (df : List NormalizedRow) (antibiotic gram : String) : Flt :=
  micMean ((group_rows df antibiotic gram).map (fun r => r.mic))

/-- `ratio = neg_avg / pos_avg` computed inside the summary loop for one
antibiotic (source line 214). -/
def summary_ratio (df : List NormalizedRow) (antibiotic : String) : Flt :=
  fdiv (group_mean df antibiotic "negative")
    (group_mean df antibiotic "positive")

/-- Stable first-occurrence argmin over `mic`: `.loc[sel['mic'].idxmin()]`
(source line 272), since pandas `idxmin` returns the first row label
achieving the minimum; `none` embeds the `ValueError` that `idxmin`
raises on an empty selection. -/
def firstMinBy : List NormalizedRow → Option NormalizedRow
  | [] => none
  | r :: rs =>
    match firstMinBy rs with
    | none => some r
    | some m => if r.mic ≤ m.mic then some r else some m

/-- Stable first-occurrence argmax over `mic`: `.loc[sel['mic'].idxmax()]`
(source line 287), since pandas `idxmax` returns the first row label
achieving the maximum; `none` embeds the `ValueError` on an empty
selection. -/
def firstMaxBy : List NormalizedRow → Option NormalizedRow
  | [] => none
  | r :: rs =>
    match firstMaxBy rs with
    | none => some r
    | some m => if m.mic ≤ r.mic then some r else some m

/-- The row selected per antibiotic for the "Most Effective (Lowest
MIC)" table (source lines 271-278). -/
def most_effective (df : List NormalizedRow) (antibiotic : String) :
    Option NormalizedRow :=
  firstMinBy (antibiotic_data df antibiotic)

/-- The row selected per antibiotic for the "Least Effective (Highest
MIC)" table (source lines 286-293). -/
def least_effective (df : List NormalizedRow) (antibiotic : String) :
    Option NormalizedRow :=
  firstMaxBy (antibiotic_data df antibiotic)

/-- The interactive filter (source lines 312-316): start from a copy of
`df`, filter by gram staining unless the selector is `'All'`, then by
antibiotic unless that selector is `'All'`. -/
def filtered_df (df : List NormalizedRow)
    (selected_gram selected_antibiotic : String) : List NormalizedRow :=
  let d1 := if selected_gram != "All"
    then df.filter (fun r => r.gram_staining == selected_gram) else df
  if selected_antibiotic != "All"
    then d1.filter (fun r => r.antibiotic == selected_antibiotic) else d1

/-- The spec's validity condition on a raw record: every MIC value
strictly positive. -/
def ValidRecord (record : RawRecord) : Prop :=
  0 < record.Penicillin ∧ 0 < record.Streptomycin ∧ 0 < record.Neomycin

instance : DecidablePred ValidRecord := fun _ =>
  inferInstanceAs (Decidable (_ ∧ _ ∧ _))

/-- The spec's validity condition on a raw dataset. -/
def ValidRaw (raw_data : List RawRecord) : Prop :=
  ∀ record ∈ raw_data, ValidRecord record

instance (raw_data : List RawRecord) : Decidable (ValidRaw raw_data) :=
  inferInstanceAs (Decidable (∀ record ∈ raw_data, ValidRecord record))

/-! ## Concrete sample data for witnesses and counterexamples -/

/-- A gram-positive sample record with all MIC values positive. -/
def recA : RawRecord :=
  { Bacteria := "Streptococcus viridans"
    Gram_Staining := "positive"
    Genus := "Streptococcus"
    Penicillin := 1
    Streptomycin := 4
    Neomycin := 6 }

/-- A gram-negative sample record with all MIC values positive. -/
def recB : RawRecord :=
  { Bacteria := "Escherichia coli"
    Gram_Staining := "negative"
    Genus := "Escherichia"
    Penicillin := 100
    Streptomycin := 2
    Neomycin := 3 }

/-- A record whose Penicillin MIC is zero (the spec's concrete error
scenario). -/
def recP0 : RawRecord :=
  { Bacteria := "Bacillus anthracis"
    Gram_Staining := "positive"
    Genus := "Bacillus"
    Penicillin := 0
    Streptomycin := 1
    Neomycin := 1 }

/-- A record that ties with `recA` on every MIC value but differs in
name, to exercise extremum tie-breaking. -/
def recC : RawRecord :=
  { Bacteria := "Streptococcus fictus"
    Gram_Staining := "positive"
    Genus := "Streptococcus"
    Penicillin := 1
    Streptomycin := 4
    Neomycin := 6 }

/-- A record that ties with `recB` on the Penicillin MIC value, to
exercise a maximum tie with a unique minimum. -/
def recD : RawRecord :=
  { Bacteria := "Salmonella fictilis"
    Gram_Staining := "negative"
    Genus := "Salmonella"
    Penicillin := 100
    Streptomycin := 5
    Neomycin := 8 }

/-- A record whose gram staining is neither `positive` nor `negative`. -/
def recU : RawRecord :=
  { Bacteria := "Mycoplasma incognita"
    Gram_Staining := "unknown"
    Genus := "Mycoplasma"
    Penicillin := 5
    Streptomycin := 7
    Neomycin := 9 }

/-! ## Basic lemmas about the embedding -/

theorem micOf_pen (record : RawRecord) :
    record.micOf "Penicillin" = record.Penicillin := rfl

theorem micOf_strep (record : RawRecord) :
    record.micOf "Streptomycin" = record.Streptomycin := rfl

theorem micOf_neo (record : RawRecord) :
    record.micOf "Neomycin" = record.Neomycin := rfl

theorem micOf_pos (record : RawRecord) (hv : ValidRecord record)
    (a : String) (ha : a ∈ antibiotics) : 0 < record.micOf a := by
  have ha' : a = "Penicillin" ∨ a = "Streptomycin" ∨ a = "Neomycin" := by
    simpa [antibiotics] using ha
  rcases ha' with rfl | rfl | rfl
  · exact hv.1
  · exact hv.2.1
  · exact hv.2.2

theorem np_log10_of_pos (q : ℚ) (hq : 0 < q) :
    np_log10 q = LogVal.log10Of q := by
  simp [np_log10, not_lt.mpr hq.le, hq.ne.symm]

theorem mem_load (raw_data : List RawRecord) (row : NormalizedRow) :
    row ∈ load_and_transform_data raw_data ↔
      ∃ record ∈ raw_data, ∃ a ∈ antibiotics, row = mkRow record a := by
  simp only [load_and_transform_data, List.mem_flatMap, rowsOf, List.mem_map]
  constructor
  · rintro ⟨record, hrec, a, ha, rfl⟩
    exact ⟨record, hrec, a, ha, rfl⟩
  · rintro ⟨record, hrec, a, ha, rfl⟩
    exact ⟨record, hrec, a, ha, rfl⟩

theorem micMean_perm {l₁ l₂ : List ℚ} (h : l₁.Perm l₂) :
    micMean l₁ = micMean l₂ := by
  have hlen := h.length_eq
  have hsum := h.sum_eq
  unfold micMean
  by_cases h1 : l₁ = []
  · subst h1
    have h2 : l₂ = [] := List.length_eq_zero.mp (by simpa using hlen.symm)
    simp [h2]
  · have h2 : l₂ ≠ [] := by
      intro hn
      subst hn
      exact h1 (List.length_eq_zero.mp (by simpa using hlen))
    rw [if_neg h1, if_neg h2, hsum, hlen]

theorem group_rows_eq_filter (df : List NormalizedRow) (a g : String) :
    group_rows df a g =
      df.filter (fun r => r.gram_staining == g && r.antibiotic == a) := by
  simp only [group_rows, antibiotic_data, List.filter_filter]

/-! ## Claim theorems -/

/-- Claim C7: filtering with both selectors set to `All` returns the
input unchanged, and any selector combination yields an
order-preserving subsequence of the input. -/
theorem filtered_df_identity_and_sublist (df : List NormalizedRow)
    (g a : String) :
    filtered_df df "All" "All" = df ∧ (filtered_df df g a).Sublist df := by
  constructor
  · simp [filtered_df]
  · by_cases hg : (g != "All") = true <;> by_cases ha : (a != "All") = true <;>
      simp only [filtered_df, hg, ha, if_true, if_false] <;>
      first
        | exact (List.filter_sublist _).trans (List.filter_sublist _)
        | exact List.filter_sublist _
        | exact List.Sublist.refl df

/-- Claim C9: the headline effectiveness ratio computed once at source
lines 44-46 equals the ratio the summary-table loop computes for
Penicillin at source lines 211-214. -/
theorem headline_ratio_matches_summary_loop (df : List NormalizedRow) :
    effectiveness_ratio df = summary_ratio df "Penicillin" := by
  simp only [effectiveness_ratio, summary_ratio, group_mean,
    group_rows_eq_filter, gram_pos_pen, gram_neg_pen]

/-- Claim C2 counterexample: on a table whose only rows come from a
gram-negative record, the (Penicillin, positive) group mean is the
float NaN that pandas returns for an empty selection; no error of any
kind is raised (the computation is total). -/
theorem group_mean_empty_returns_nan :
    group_mean (load_and_transform_data [recB]) "Penicillin" "positive" =
      Flt.nan := by decide

/-- Claim C2 (amended): when no row matches both keys, the group-mean
computation does not fail; it returns NaN, the pandas mean of an empty
selection. -/
theorem group_mean_no_match (df : List NormalizedRow) (a g : String)
    (h : ∀ r ∈ df, ¬(r.antibiotic = a ∧ r.gram_staining = g)) :
    group_mean df a g = Flt.nan := by
  have hrows : group_rows df a g = [] := by
    rw [group_rows_eq_filter, List.filter_eq_nil_iff]
    intro r hr hb
    simp only [Bool.and_eq_true, beq_iff_eq] at hb
    exact h r hr ⟨hb.2, hb.1⟩
  simp [group_mean, hrows, micMean]

/-- Witness for the amended C2 theorem at a concrete table and key. -/
theorem group_mean_no_match_witness :
    (∀ r ∈ load_and_transform_data [recB],
        ¬(r.antibiotic = "Penicillin" ∧ r.gram_staining = "positive")) ∧
      group_mean (load_and_transform_data [recB]) "Penicillin" "positive" =
        Flt.nan :=
  ⟨by decide, group_mean_no_match _ "Penicillin" "positive" (by decide)⟩

/-- Claim C1 counterexample: a raw record with `Penicillin: 0` is not
rejected; `load_and_transform_data` returns the usual three rows and
the Penicillin row carries `log_mic = -inf` (the value of
`np.log10(0)`). -/
theorem pen_zero_not_rejected :
    (load_and_transform_data [recP0]).length = 3 ∧
      ∃ row ∈ load_and_transform_data [recP0],
        row.antibiotic = "Penicillin" ∧ row.mic = 0 ∧
          row.log_mic = LogVal.negInf := by decide

/-- Claim C1 (amended): a record with a zero Penicillin MIC does not
make the load fail; its Penicillin row appears in the normalized table
with `mic = 0` and `log_mic = -inf`. -/
theorem load_pen_zero_row (raw_data : List RawRecord) (record : RawRecord)
    (hmem : record ∈ raw_data) (h0 : record.Penicillin = 0) :
    ∃ row ∈ load_and_transform_data raw_data,
      row.antibiotic = "Penicillin" ∧ row.mic = 0 ∧
        row.log_mic = LogVal.negInf := by
  refine ⟨mkRow record "Penicillin", ?_, rfl, ?_, ?_⟩
  · exact (mem_load raw_data _).mpr
      ⟨record, hmem, "Penicillin", by simp [antibiotics], rfl⟩
  · simpa [mkRow, micOf_pen] using h0
  · simp [mkRow, micOf_pen, h0, np_log10]

/-- Witness for the amended C1 theorem at the concrete zero-MIC record. -/
theorem load_pen_zero_row_witness :
    (recP0 ∈ [recP0] ∧ recP0.Penicillin = 0) ∧
      ∃ row ∈ load_and_transform_data [recP0],
        row.antibiotic = "Penicillin" ∧ row.mic = 0 ∧
          row.log_mic = LogVal.negInf :=
  ⟨⟨by decide, by decide⟩, load_pen_zero_row [recP0] recP0 (by decide) (by decide)⟩

theorem load_length (raw_data : List RawRecord) :
    (load_and_transform_data raw_data).length =
      raw_data.length * antibiotics.length := by
  induction raw_data with
  | nil => rfl
  | cons r rs ih =>
    simp only [load_and_transform_data, List.flatMap_cons,
      List.length_append] at *
    rw [ih]
    simp only [rowsOf, List.length_map, List.length_cons]
    ring

theorem load_block (raw_data : List RawRecord) (i : ℕ)
    (hi : i < raw_data.length) :
    ((load_and_transform_data raw_data).drop (3 * i)).take 3 =
      [mkRow (raw_data.get ⟨i, hi⟩) "Penicillin",
       mkRow (raw_data.get ⟨i, hi⟩) "Streptomycin",
       mkRow (raw_data.get ⟨i, hi⟩) "Neomycin"] := by
  induction raw_data generalizing i with
  | nil => exact absurd hi (Nat.not_lt_zero i)
  | cons r rs ih =>
    cases i with
    | zero =>
      simp [load_and_transform_data, List.flatMap_cons, rowsOf, antibiotics]
    | succ n =>
      have h3 : 3 * (n + 1) = (rowsOf r).length + 3 * n := by
        simp only [rowsOf, List.length_map, antibiotics, List.length_cons,
          List.length_nil]
        ring
      rw [load_and_transform_data, List.flatMap_cons, h3, List.drop_append]
      exact ih n (Nat.lt_of_succ_lt_succ hi)

/-- Claim C3: a valid raw dataset of N records yields exactly
N × K normalized rows (K the size of the fixed antibiotic set), and
record i's rows form the i-th contiguous block, emitted in the declared
order Penicillin, Streptomycin, Neomycin. -/
theorem load_shape (raw_data : List RawRecord) (hvalid : ValidRaw raw_data)
    (i : ℕ) (hi : i < raw_data.length) :
    (load_and_transform_data raw_data).length =
        raw_data.length * antibiotics.length ∧
      ((load_and_transform_data raw_data).drop (3 * i)).take 3 =
        [mkRow (raw_data.get ⟨i, hi⟩) "Penicillin",
         mkRow (raw_data.get ⟨i, hi⟩) "Streptomycin",
         mkRow (raw_data.get ⟨i, hi⟩) "Neomycin"] :=
  ⟨load_length raw_data, load_block raw_data i hi⟩

/-- Witness for the C3 theorem on a concrete two-record dataset. -/
theorem load_shape_witness :
    (ValidRaw [recA, recB] ∧ 1 < [recA, recB].length) ∧
      ((load_and_transform_data [recA, recB]).length =
          [recA, recB].length * antibiotics.length ∧
        ((load_and_transform_data [recA, recB]).drop (3 * 1)).take 3 =
          [mkRow ([recA, recB].get ⟨1, by decide⟩) "Penicillin",
           mkRow ([recA, recB].get ⟨1, by decide⟩) "Streptomycin",
           mkRow ([recA, recB].get ⟨1, by decide⟩) "Neomycin"]) :=
  ⟨⟨by decide, by decide⟩, load_shape [recA, recB] (by decide) 1 (by decide)⟩

/-- Claim C4: every row of the normalized table of a valid raw dataset
has `log_mic` equal to the base-10 logarithm of its `mic`, and its
`bacteria`, `genus`, `gram_staining` and `mic` fields copied from a
source record (`mic` from that record's entry for the row's
antibiotic). -/
theorem load_row_fields (raw_data : List RawRecord)
    (hvalid : ValidRaw raw_data) (row : NormalizedRow)
    (hrow : row ∈ load_and_transform_data raw_data) :
    row.log_mic = LogVal.log10Of row.mic ∧
      ∃ record ∈ raw_data,
        row.bacteria = record.Bacteria ∧ row.genus = record.Genus ∧
          row.gram_staining = record.Gram_Staining ∧
          row.mic = record.micOf row.antibiotic := by
  obtain ⟨record, hrec, a, ha, rfl⟩ := (mem_load raw_data row).mp hrow
  have hpos : 0 < record.micOf a := micOf_pos record (hvalid record hrec) a ha
  exact ⟨np_log10_of_pos _ hpos, record, hrec, rfl, rfl, rfl, rfl⟩

/-- Witness for the C4 theorem at a concrete row of a concrete table. -/
theorem load_row_fields_witness :
    (ValidRaw [recA] ∧
        mkRow recA "Penicillin" ∈ load_and_transform_data [recA]) ∧
      ((mkRow recA "Penicillin").log_mic =
          LogVal.log10Of (mkRow recA "Penicillin").mic ∧
        ∃ record ∈ [recA],
          (mkRow recA "Penicillin").bacteria = record.Bacteria ∧
            (mkRow recA "Penicillin").genus = record.Genus ∧
            (mkRow recA "Penicillin").gram_staining = record.Gram_Staining ∧
            (mkRow recA "Penicillin").mic =
              record.micOf (mkRow recA "Penicillin").antibiotic) :=
  ⟨⟨by decide, by decide⟩,
    load_row_fields [recA] (by decide) (mkRow recA "Penicillin") (by decide)⟩

theorem firstMinBy_cons (r : NormalizedRow) (rs : List NormalizedRow) :
    firstMinBy (r :: rs) =
      match firstMinBy rs with
      | none => some r
      | some m => if r.mic ≤ m.mic then some r else some m := rfl

theorem firstMaxBy_cons (r : NormalizedRow) (rs : List NormalizedRow) :
    firstMaxBy (r :: rs) =
      match firstMaxBy rs with
      | none => some r
      | some m => if m.mic ≤ r.mic then some r else some m := rfl

theorem firstMinBy_isSome (l : List NormalizedRow) (hl : l ≠ []) :
    ∃ m, firstMinBy l = some m := by
  cases l with
  | nil => exact absurd rfl hl
  | cons r rs =>
    rw [firstMinBy_cons]
    cases h : firstMinBy rs with
    | none => exact ⟨r, rfl⟩
    | some m =>
      by_cases hle : r.mic ≤ m.mic
      · exact ⟨r, by simp [hle]⟩
      · exact ⟨m, by simp [hle]⟩

theorem firstMaxBy_isSome (l : List NormalizedRow) (hl : l ≠ []) :
    ∃ m, firstMaxBy l = some m := by
  cases l with
  | nil => exact absurd rfl hl
  | cons r rs =>
    rw [firstMaxBy_cons]
    cases h : firstMaxBy rs with
    | none => exact ⟨r, rfl⟩
    | some m =>
      by_cases hle : m.mic ≤ r.mic
      · exact ⟨r, by simp [hle]⟩
      · exact ⟨m, by simp [hle]⟩

theorem firstMinBy_le (l : List NormalizedRow) (m : NormalizedRow)
    (hm : firstMinBy l = some m) : ∀ s ∈ l, m.mic ≤ s.mic := by
  induction l generalizing m with
  | nil => simp [firstMinBy] at hm
  | cons r rs ih =>
    rw [firstMinBy_cons] at hm
    cases hrs : firstMinBy rs with
    | none =>
      rw [hrs] at hm
      dsimp only at hm
      cases hm
      have hnil : rs = [] := by
        cases rs with
        | nil => rfl
        | cons x xs =>
          obtain ⟨m', hm'⟩ := firstMinBy_isSome (x :: xs) (by simp)
          rw [hm'] at hrs
          cases hrs
      subst hnil
      intro s hs
      rw [List.mem_singleton] at hs
      subst hs
      exact le_refl _
    | some m' =>
      rw [hrs] at hm
      dsimp only at hm
      have hrec := ih m' hrs
      by_cases hle : r.mic ≤ m'.mic
      · rw [if_pos hle] at hm
        cases hm
        intro s hs
        rcases List.mem_cons.mp hs with rfl | hs
        · exact le_refl _
        · exact hle.trans (hrec s hs)
      · rw [if_neg hle] at hm
        cases hm
        intro s hs
        rcases List.mem_cons.mp hs with rfl | hs
        · exact (not_le.mp hle).le
        · exact hrec s hs

theorem firstMaxBy_ge (l : List NormalizedRow) (m : NormalizedRow)
    (hm : firstMaxBy l = some m) : ∀ s ∈ l, s.mic ≤ m.mic := by
  induction l generalizing m with
  | nil => simp [firstMaxBy] at hm
  | cons r rs ih =>
    rw [firstMaxBy_cons] at hm
    cases hrs : firstMaxBy rs with
    | none =>
      rw [hrs] at hm
      dsimp only at hm
      cases hm
      have hnil : rs = [] := by
        cases rs with
        | nil => rfl
        | cons x xs =>
          obtain ⟨m', hm'⟩ := firstMaxBy_isSome (x :: xs) (by simp)
          rw [hm'] at hrs
          cases hrs
      subst hnil
      intro s hs
      rw [List.mem_singleton] at hs
      subst hs
      exact le_refl _
    | some m' =>
      rw [hrs] at hm
      dsimp only at hm
      have hrec := ih m' hrs
      by_cases hle : m'.mic ≤ r.mic
      · rw [if_pos hle] at hm
        cases hm
        intro s hs
        rcases List.mem_cons.mp hs with rfl | hs
        · exact le_refl _
        · exact (hrec s hs).trans hle
      · rw [if_neg hle] at hm
        cases hm
        intro s hs
        rcases List.mem_cons.mp hs with rfl | hs
        · exact (not_le.mp hle).le
        · exact hrec s hs

theorem firstMinBy_first (l : List NormalizedRow) (m : NormalizedRow)
    (hm : firstMinBy l = some m) :
    ∃ l₁ l₂, l = l₁ ++ m :: l₂ ∧ ∀ s ∈ l₁, m.mic < s.mic := by
  induction l generalizing m with
  | nil => simp [firstMinBy] at hm
  | cons r rs ih =>
    rw [firstMinBy_cons] at hm
    cases hrs : firstMinBy rs with
    | none =>
      rw [hrs] at hm
      dsimp only at hm
      cases hm
      exact ⟨[], rs, rfl, by simp⟩
    | some m' =>
      rw [hrs] at hm
      dsimp only at hm
      by_cases hle : r.mic ≤ m'.mic
      · rw [if_pos hle] at hm
        cases hm
        exact ⟨[], rs, rfl, by simp⟩
      · rw [if_neg hle] at hm
        cases hm
        obtain ⟨l₁, l₂, heq, hgt⟩ := ih m hrs
        refine ⟨r :: l₁, l₂, by rw [heq, List.cons_append], ?_⟩
        intro s hs
        rcases List.mem_cons.mp hs with rfl | hs
        · exact not_le.mp hle
        · exact hgt s hs

theorem firstMaxBy_first (l : List NormalizedRow) (m : NormalizedRow)
    (hm : firstMaxBy l = some m) :
    ∃ l₁ l₂, l = l₁ ++ m :: l₂ ∧ ∀ s ∈ l₁, s.mic < m.mic := by
  induction l generalizing m with
  | nil => simp [firstMaxBy] at hm
  | cons r rs ih =>
    rw [firstMaxBy_cons] at hm
    cases hrs : firstMaxBy rs with
    | none =>
      rw [hrs] at hm
      dsimp only at hm
      cases hm
      exact ⟨[], rs, rfl, by simp⟩
    | some m' =>
      rw [hrs] at hm
      dsimp only at hm
      by_cases hle : m'.mic ≤ r.mic
      · rw [if_pos hle] at hm
        cases hm
        exact ⟨[], rs, rfl, by simp⟩
      · rw [if_neg hle] at hm
        cases hm
        obtain ⟨l₁, l₂, heq, hgt⟩ := ih m hrs
        refine ⟨r :: l₁, l₂, by rw [heq, List.cons_append], ?_⟩
        intro s hs
        rcases List.mem_cons.mp hs with rfl | hs
        · exact not_le.mp hle
        · exact hgt s hs

/-- Claim C5: whenever some row has the given antibiotic, the
most-effective selection returns a row whose `mic` is a lower bound on
the `mic` of every row with that antibiotic, and the least-effective
selection an upper bound. -/
theorem extremum_bounds (df : List NormalizedRow) (a : String)
    (r : NormalizedRow) (hr : r ∈ df) (ha : r.antibiotic = a) :
    (∃ m, most_effective df a = some m ∧ m.mic ≤ r.mic) ∧
      (∃ m, least_effective df a = some m ∧ r.mic ≤ m.mic) := by
  have hmem : r ∈ antibiotic_data df a := by
    rw [antibiotic_data, List.mem_filter]
    exact ⟨hr, by simp [ha]⟩
  have hne : antibiotic_data df a ≠ [] := List.ne_nil_of_mem hmem
  constructor
  · obtain ⟨m, hm⟩ := firstMinBy_isSome _ hne
    exact ⟨m, hm, firstMinBy_le _ m hm r hmem⟩
  · obtain ⟨m, hm⟩ := firstMaxBy_isSome _ hne
    exact ⟨m, hm, firstMaxBy_ge _ m hm r hmem⟩

/-- Witness for the C5 theorem on a concrete table and row. -/
theorem extremum_bounds_witness :
    (mkRow recA "Penicillin" ∈ load_and_transform_data [recA, recB] ∧
        (mkRow recA "Penicillin").antibiotic = "Penicillin") ∧
      ((∃ m, most_effective (load_and_transform_data [recA, recB])
            "Penicillin" = some m ∧ m.mic ≤ (mkRow recA "Penicillin").mic) ∧
        (∃ m, least_effective (load_and_transform_data [recA, recB])
            "Penicillin" = some m ∧ (mkRow recA "Penicillin").mic ≤ m.mic)) :=
  ⟨⟨by decide, by decide⟩,
    extremum_bounds (load_and_transform_data [recA, recB]) "Penicillin"
      (mkRow recA "Penicillin") (by decide) (by decide)⟩

/-- Claim C6: when two or more rows tie for the minimum (resp. maximum)
`mic` among the rows of an antibiotic, the most-effective (resp.
least-effective) selection returns the first minimal (resp. maximal)
row in the table's iteration order: every row before the returned one
has strictly greater (resp. strictly smaller) `mic`. -/
theorem extremum_tie_break (df : List NormalizedRow) (a : String) :
    (2 ≤ ((antibiotic_data df a).filter (fun r =>
        decide (∀ s ∈ antibiotic_data df a, r.mic ≤ s.mic))).length →
      ∃ m l₁ l₂, most_effective df a = some m ∧
        antibiotic_data df a = l₁ ++ m :: l₂ ∧
        (∀ s ∈ antibiotic_data df a, m.mic ≤ s.mic) ∧
        ∀ s ∈ l₁, m.mic < s.mic) ∧
      (2 ≤ ((antibiotic_data df a).filter (fun r =>
        decide (∀ s ∈ antibiotic_data df a, s.mic ≤ r.mic))).length →
      ∃ m l₁ l₂, least_effective df a = some m ∧
        antibiotic_data df a = l₁ ++ m :: l₂ ∧
        (∀ s ∈ antibiotic_data df a, s.mic ≤ m.mic) ∧
        ∀ s ∈ l₁, s.mic < m.mic) := by
  constructor
  · intro hmin
    have hne : antibiotic_data df a ≠ [] := by
      intro h
      rw [h] at hmin
      simp at hmin
    obtain ⟨m, hm⟩ := firstMinBy_isSome _ hne
    obtain ⟨l₁, l₂, heq, hgt⟩ := firstMinBy_first _ m hm
    exact ⟨m, l₁, l₂, hm, heq, firstMinBy_le _ m hm, hgt⟩
  · intro hmax
    have hne : antibiotic_data df a ≠ [] := by
      intro h
      rw [h] at hmax
      simp at hmax
    obtain ⟨m, hm⟩ := firstMaxBy_isSome _ hne
    obtain ⟨l₁, l₂, heq, hgt⟩ := firstMaxBy_first _ m hm
    exact ⟨m, l₁, l₂, hm, heq, firstMaxBy_ge _ m hm, hgt⟩

/-- Witness for the C6 theorem, exercising each half on its own: the
minimum half on a table whose Penicillin `mic` values are 1, 1, 100 (a
two-way minimum tie with a unique maximum), and the maximum half on a
table with values 1, 100, 100 (a two-way maximum tie with a unique
minimum). -/
theorem extremum_tie_break_witness :
    (2 ≤ ((antibiotic_data (load_and_transform_data [recA, recC, recB])
          "Penicillin").filter (fun r =>
        decide (∀ s ∈ antibiotic_data
          (load_and_transform_data [recA, recC, recB])
          "Penicillin", r.mic ≤ s.mic))).length ∧
      ∃ m l₁ l₂, most_effective (load_and_transform_data [recA, recC, recB])
          "Penicillin" = some m ∧
        antibiotic_data (load_and_transform_data [recA, recC, recB])
          "Penicillin" = l₁ ++ m :: l₂ ∧
        (∀ s ∈ antibiotic_data (load_and_transform_data [recA, recC, recB])
          "Penicillin", m.mic ≤ s.mic) ∧
        ∀ s ∈ l₁, m.mic < s.mic) ∧
      (2 ≤ ((antibiotic_data (load_and_transform_data [recA, recB, recD])
          "Penicillin").filter (fun r =>
        decide (∀ s ∈ antibiotic_data
          (load_and_transform_data [recA, recB, recD])
          "Penicillin", s.mic ≤ r.mic))).length ∧
      ∃ m l₁ l₂, least_effective (load_and_transform_data [recA, recB, recD])
          "Penicillin" = some m ∧
        antibiotic_data (load_and_transform_data [recA, recB, recD])
          "Penicillin" = l₁ ++ m :: l₂ ∧
        (∀ s ∈ antibiotic_data (load_and_transform_data [recA, recB, recD])
          "Penicillin", s.mic ≤ m.mic) ∧
        ∀ s ∈ l₁, s.mic < m.mic) :=
  ⟨⟨by decide,
      (extremum_tie_break (load_and_transform_data [recA, recC, recB])
        "Penicillin").1 (by decide)⟩,
    ⟨by decide,
      (extremum_tie_break (load_and_transform_data [recA, recB, recD])
        "Penicillin").2 (by decide)⟩⟩

/-- Claim C8: with both gram groups non-empty for an antibiotic, the
effectiveness ratio (negative-group mean over positive-group mean) is
unchanged by any permutation of the row order, both for the summary
loop's per-antibiotic ratio and for the headline Penicillin ratio. -/
theorem ratio_perm_invariant (df₁ df₂ : List NormalizedRow) (a : String)
    (hperm : df₁.Perm df₂)
    (hpos : group_rows df₁ a "positive" ≠ [])
    (hneg : group_rows df₁ a "negative" ≠ []) :
    summary_ratio df₁ a = summary_ratio df₂ a ∧
      effectiveness_ratio df₁ = effectiveness_ratio df₂ := by
  have hmean : ∀ g, group_mean df₁ a g = group_mean df₂ a g := by
    intro g
    exact micMean_perm (((hperm.filter _).filter _).map _)
  constructor
  · simp only [summary_ratio, hmean]
  · simp only [effectiveness_ratio, gram_pos_pen, gram_neg_pen]
    congr 1
    · exact micMean_perm ((hperm.filter _).map _)
    · exact micMean_perm ((hperm.filter _).map _)

/-- Witness for the C8 theorem on a concrete table and its reversal. -/
theorem ratio_perm_invariant_witness :
    ((load_and_transform_data [recA, recB]).Perm
        (load_and_transform_data [recB, recA]) ∧
      group_rows (load_and_transform_data [recA, recB]) "Penicillin"
          "positive" ≠ [] ∧
      group_rows (load_and_transform_data [recA, recB]) "Penicillin"
          "negative" ≠ []) ∧
      (summary_ratio (load_and_transform_data [recA, recB]) "Penicillin" =
          summary_ratio (load_and_transform_data [recB, recA]) "Penicillin" ∧
        effectiveness_ratio (load_and_transform_data [recA, recB]) =
          effectiveness_ratio (load_and_transform_data [recB, recA])) :=
  ⟨⟨by decide, by decide, by decide⟩,
    ratio_perm_invariant (load_and_transform_data [recA, recB])
      (load_and_transform_data [recB, recA]) "Penicillin"
      (by decide) (by decide) (by decide)⟩

/-- Claim C10: a record whose gram staining is neither `positive` nor
`negative` is not rejected: its rows appear in the normalized table
with the gram value copied verbatim, and such rows belong to neither
the positive-group nor the negative-group selection of any antibiotic,
so they count toward neither group mean. -/
theorem gram_copied_unvalidated (raw_data : List RawRecord)
    (record : RawRecord) (hmem : record ∈ raw_data)
    (hpos : record.Gram_Staining ≠ "positive")
    (hneg : record.Gram_Staining ≠ "negative") :
    (∃ row ∈ load_and_transform_data raw_data,
        row.bacteria = record.Bacteria ∧
          row.gram_staining = record.Gram_Staining) ∧
      ∀ row ∈ load_and_transform_data raw_data,
        row.gram_staining = record.Gram_Staining →
          ∀ a, row ∉ group_rows (load_and_transform_data raw_data)
              a "positive" ∧
            row ∉ group_rows (load_and_transform_data raw_data)
              a "negative" := by
  constructor
  · exact ⟨mkRow record "Penicillin",
      (mem_load _ _).mpr
        ⟨record, hmem, "Penicillin", by simp [antibiotics], rfl⟩,
      rfl, rfl⟩
  · intro row hrow hgram a
    constructor
    · intro hin
      rw [group_rows_eq_filter, List.mem_filter] at hin
      have hb := hin.2
      simp only [Bool.and_eq_true, beq_iff_eq] at hb
      exact hpos (hgram.symm.trans hb.1)
    · intro hin
      rw [group_rows_eq_filter, List.mem_filter] at hin
      have hb := hin.2
      simp only [Bool.and_eq_true, beq_iff_eq] at hb
      exact hneg (hgram.symm.trans hb.1)

/-- Witness for the C10 theorem with a concrete `unknown`-gram record. -/
theorem gram_copied_unvalidated_witness :
    (recU ∈ [recA, recU] ∧ recU.Gram_Staining ≠ "positive" ∧
        recU.Gram_Staining ≠ "negative") ∧
      ((∃ row ∈ load_and_transform_data [recA, recU],
          row.bacteria = recU.Bacteria ∧
            row.gram_staining = recU.Gram_Staining) ∧
        ∀ row ∈ load_and_transform_data [recA, recU],
          row.gram_staining = recU.Gram_Staining →
            ∀ a, row ∉ group_rows (load_and_transform_data [recA, recU])
                a "positive" ∧
              row ∉ group_rows (load_and_transform_data [recA, recU])
                a "negative") :=
  ⟨⟨by decide, by decide, by decide⟩,
    gram_copied_unvalidated [recA, recU] recU
      (by decide) (by decide) (by decide)⟩
